import Mathlib

/-!
Shallow embedding of the bozorapp storage core: the in-memory ledger
(`MemStorage` in src/Bozor/www/index.js) together with the route-level
validation that fronts it (src/server/routes.ts).  Decimal-string fields
are modelled by their rational values (the code parses them with
`parseFloat` on numeric decimal strings), ids by naturals, timestamps by
naturals, and calendar days (ISO `YYYY-MM-DD` strings, whose lexicographic
order agrees with chronological order) by integers.
-/

/-- Product record as stored by `MemStorage` (schema in src/shared/schema.ts). -/
structure Product where
  id : Nat
  name : String
  purchasePrice : Rat
  sellingPrice : Rat
  stock : Rat
  createdAt : Nat
deriving DecidableEq

/-- Sale record as stored by `MemStorage`.  `totalAmount` and `profit` are
whatever the insert request carried; `saleDay` is the calendar day of the
creation timestamp. -/
structure Sale where
  id : Nat
  productId : Nat
  quantity : Rat
  pricePerKg : Rat
  totalAmount : Rat
  profit : Rat
  saleDay : Int
deriving DecidableEq

/-- Daily report record as stored by `MemStorage` (keyed by its date). -/
structure DailyReport where
  id : Nat
  date : Int
  totalSales : Rat
  totalProfit : Rat
  totalCost : Rat
  isSubmitted : Bool
  submittedAt : Option Nat
deriving DecidableEq

/-- Body of POST /api/products after `insertProductSchema.parse`: the schema
only checks the shape (all fields present as strings), so any field values
reach the store. -/
structure InsertProduct where
  name : String
  purchasePrice : Rat
  sellingPrice : Rat
  stock : Rat
deriving DecidableEq

/-- Body of POST /api/sales after `insertSaleSchema.parse`: the schema omits
only `id` and `saleDate`, so `totalAmount` and `profit` are caller-supplied. -/
structure InsertSale where
  productId : Nat
  quantity : Rat
  pricePerKg : Rat
  totalAmount : Rat
  profit : Rat
deriving DecidableEq

/-- The three maps owned by `MemStorage`, modelled as association lists
(products and sales keyed by `id`, daily reports keyed by `date`). -/
structure StoreState where
  products : List Product
  sales : List Sale
  dailyReports : List DailyReport
deriving DecidableEq

/-- Fresh `MemStorage` (empty maps). -/
def emptyState : StoreState := ⟨[], [], []⟩

/-- `Map.set` on the products map: replace the entry with the same id, or
append. -/
def setProduct (p : Product) : List Product → List Product
  | [] => [p]
  | q :: l => if q.id = p.id then p :: l else q :: setProduct p l

/-- `Map.get` on the products map. -/
def findProduct (id : Nat) (l : List Product) : Option Product :=
  l.find? (fun p => p.id == id)

/-- `Map.set` on the sales map. -/
def setSale (x : Sale) : List Sale → List Sale
  | [] => [x]
  | y :: l => if y.id = x.id then x :: l else y :: setSale x l

/-- `Map.set` on the daily-reports map (keyed by the record's date, which is
the key used at every call site). -/
def setReport (r : DailyReport) : List DailyReport → List DailyReport
  | [] => [r]
  | x :: l => if x.date = r.date then r :: l else x :: setReport r l

/-- `Map.get` on the daily-reports map. -/
def findReport (d : Int) (l : List DailyReport) : Option DailyReport :=
  l.find? (fun r => r.date == d)

/-- `MemStorage.createProduct`: spreads the insert request, stamps a fresh id
and `createdAt`, and stores the product.  No field validation. -/
def MemStorage.createProduct (req : InsertProduct) (freshId now : Nat)
    (s : StoreState) : Product × StoreState :=
  let p : Product := ⟨freshId, req.name, req.purchasePrice, req.sellingPrice, req.stock, now⟩
  (p, { s with products := setProduct p s.products })

/-- `MemStorage.updateProductStock`: if the product exists, overwrite its
stock with `newStock` (any value); if not, silently do nothing. -/
def MemStorage.updateProductStock (id : Nat) (newStock : Rat)
    (s : StoreState) : StoreState :=
  match findProduct id s.products with
  | some p => { s with products := setProduct { p with stock := newStock } s.products }
  | none => s

/-- Sale built by `MemStorage.createSale` from the insert request: a spread of
the request plus fresh id and the creation day.  `totalAmount` and `profit`
are taken verbatim from the request. -/
def mkSale (req : InsertSale) (freshId : Nat) (today : Int) : Sale :=
  ⟨freshId, req.productId, req.quantity, req.pricePerKg, req.totalAmount, req.profit, today⟩

/-- `MemStorage.createSale`: insert the sale, then, if the referenced product
exists, set its stock to `stock - quantity`. -/
def MemStorage.createSale (req : InsertSale) (freshId : Nat) (today : Int)
    (s : StoreState) : Sale × StoreState :=
  let sale := mkSale req freshId today
  let s1 : StoreState := { s with sales := setSale sale s.sales }
  let s2 :=
    match findProduct req.productId s1.products with
    | some p => MemStorage.updateProductStock req.productId (p.stock - req.quantity) s1
    | none => s1
  (sale, s2)

/-- `MemStorage.getSalesByDate`: sales whose creation day equals `d`. -/
def getSalesByDate (d : Int) (l : List Sale) : List Sale :=
  l.filter (fun sa => sa.saleDay == d)

/-- `MemStorage.getSalesByDateRange`: sales whose creation day lies in
the inclusive range, via the ISO-string comparisons of the source. -/
def getSalesByDateRange (startDate endDate : Int) (l : List Sale) : List Sale :=
  l.filter (fun sa => decide (startDate ≤ sa.saleDay) && decide (sa.saleDay ≤ endDate))

/-- Reduce with `(sum, sale) => sum + parseFloat(sale.profit)` from 0. -/
def sumProfit (l : List Sale) : Rat :=
  l.foldl (fun acc sa => acc + sa.profit) 0

/-- Reduce with `(sum, sale) => sum + parseFloat(sale.totalAmount)` from 0. -/
def sumTotalAmount (l : List Sale) : Rat :=
  l.foldl (fun acc sa => acc + sa.totalAmount) 0

/-- Modelled from the spec (§4.4 numeric semantics): rounding to 2 decimal
places, half away from zero.  Also used to model JavaScript `toFixed(2)`
where the routes format report totals before storing them. -/
def round2 (x : Rat) : Rat :=
  if 0 ≤ x then (⌊x * 100 + 1/2⌋ : Rat) / 100
  else -((⌊-x * 100 + 1/2⌋ : Rat) / 100)

/-- Result record of `MemStorage.getDashboardStats` (before the final
`toFixed` display formatting; `productCount` is `products.size`). -/
structure DashboardStats where
  dailyProfit : Rat
  dailySales : Rat
  dailyCost : Rat
  dailyMargin : Rat
  weeklyProfit : Rat
  productCount : Nat
deriving DecidableEq

/-- `MemStorage.getDashboardStats`: today's sums, margin, and the weekly
profit over `getSalesByDateRange(today - 7, today)` (the source computes
`weekAgo = today minus 7 days` via `setDate(getDate() - 7)`). -/
def MemStorage.getDashboardStats (today : Int) (s : StoreState) : DashboardStats :=
  let todaySales := getSalesByDate today s.sales
  let dailyProfit := sumProfit todaySales
  let dailySales := sumTotalAmount todaySales
  let dailyCost := dailySales - dailyProfit
  let dailyMargin := if 0 < dailySales then dailyProfit / dailySales * 100 else 0
  let weeklyStartDate := today - 7
  let weeklySales := getSalesByDateRange weeklyStartDate today s.sales
  let weeklyProfit := sumProfit weeklySales
  ⟨dailyProfit, dailySales, dailyCost, dailyMargin, weeklyProfit, s.products.length⟩

/-- `MemStorage.createDailyReport` as invoked by the submit route: store a
fresh report; `submittedAt` is `now` when `isSubmitted`, else null. -/
def MemStorage.createDailyReport (date : Int) (tS tP tC : Rat) (isSub : Bool)
    (freshId now : Nat) (s : StoreState) : StoreState :=
  let r : DailyReport := ⟨freshId, date, tS, tP, tC, isSub, if isSub then some now else none⟩
  { s with dailyReports := setReport r s.dailyReports }

/-- `MemStorage.updateDailyReport` as invoked by the submit route (updates =
totals plus `isSubmitted`): if the report exists, `submittedAt` is stamped
only on a false-to-true transition of `isSubmitted`, then the updates are
assigned over the record; if not, silently do nothing. -/
def MemStorage.updateDailyReport (date : Int) (tS tP tC : Rat) (isSub : Bool)
    (now : Nat) (s : StoreState) : StoreState :=
  match findReport date s.dailyReports with
  | some r =>
      let newSubmittedAt := if isSub && !r.isSubmitted then some now else r.submittedAt
      let r2 : DailyReport :=
        { r with
            totalSales := tS
            totalProfit := tP
            totalCost := tC
            isSubmitted := isSub
            submittedAt := newSubmittedAt }
      { s with dailyReports := setReport r2 s.dailyReports }
  | none => s

/-- Outcome of POST /api/sales. -/
inductive SaleResult where
  | ok (sale : Sale)
  | notFound
  | insufficientStock
deriving DecidableEq

/-- POST /api/sales (src/server/routes.ts): 404 if the product is unknown,
400 "Insufficient stock" if `stock < quantity`, otherwise
`MemStorage.createSale`. -/
def postSales (req : InsertSale) (freshId : Nat) (today : Int)
    (s : StoreState) : SaleResult × StoreState :=
  match findProduct req.productId s.products with
  | none => (.notFound, s)
  | some product =>
    if product.stock < req.quantity then (.insufficientStock, s)
    else
      let pr := MemStorage.createSale req freshId today s
      (.ok pr.1, pr.2)

/-- POST /api/products: after the shape-only schema parse, always creates the
product. -/
def postProducts (req : InsertProduct) (freshId now : Nat)
    (s : StoreState) : Product × StoreState :=
  MemStorage.createProduct req freshId now s

/-- Outcome of PATCH /api/products/:id/stock. -/
inductive StockResult where
  | updated
  | invalidInput
deriving DecidableEq

/-- PATCH /api/products/:id/stock: rejects only a missing or non-numeric
`newStock` (modelled as `none`); any parsed number, negative included, is
passed to `MemStorage.updateProductStock`, and the route answers success
whether or not the product exists. -/
def patchProductStock (id : Nat) (newStock : Option Rat)
    (s : StoreState) : StockResult × StoreState :=
  match newStock with
  | none => (.invalidInput, s)
  | some v => (.updated, MemStorage.updateProductStock id v s)

/-- Outcome of POST /api/reports/daily/submit. -/
inductive SubmitResult where
  | submitted
  | earlySubmission
deriving DecidableEq

/-- POST /api/reports/daily/submit: rejected when the local hour is < 18;
otherwise totals are recomputed from today's sales, formatted with
`toFixed(2)`, and the report for today is updated if present, created
otherwise. -/
def postSubmitReport (hour : Nat) (today : Int) (freshId now : Nat)
    (s : StoreState) : SubmitResult × StoreState :=
  if hour < 18 then (.earlySubmission, s)
  else
    let todaySales := getSalesByDate today s.sales
    let totalSales := sumTotalAmount todaySales
    let totalProfit := sumProfit todaySales
    let totalCost := totalSales - totalProfit
    match findReport today s.dailyReports with
    | some _ =>
        (.submitted, MemStorage.updateDailyReport today (round2 totalSales)
          (round2 totalProfit) (round2 totalCost) true now s)
    | none =>
        (.submitted, MemStorage.createDailyReport today (round2 totalSales)
          (round2 totalProfit) (round2 totalCost) true freshId now s)

/-- One externally triggerable mutating operation of the core. -/
inductive Op where
  | createProduct (req : InsertProduct) (freshId now : Nat)
  | recordSale (req : InsertSale) (freshId : Nat) (today : Int)
  | patchStock (id : Nat) (newStock : Option Rat)
  | submitReport (hour : Nat) (today : Int) (freshId now : Nat)

/-- State transition of one operation (route handler applied to the store). -/
def applyOp (s : StoreState) (o : Op) : StoreState :=
  match o with
  | .createProduct req fid now => (postProducts req fid now s).2
  | .recordSale req fid today => (postSales req fid today s).2
  | .patchStock id v => (patchProductStock id v s).2
  | .submitReport hour today fid now => (postSubmitReport hour today fid now s).2

/-- Run a sequence of operations from the fresh store. -/
def runOps (ops : List Op) : StoreState := ops.foldl applyOp emptyState

/-- Modelled from the spec (§4.4): weekly profit as the sum of profit over
the trailing 7-day window `[today - 6, today]` inclusive. -/
def specWeeklyProfit (today : Int) (s : StoreState) : Rat :=
  sumProfit (s.sales.filter (fun sa => decide (today - 6 ≤ sa.saleDay ∧ sa.saleDay ≤ today)))

/-- Operations whose explicit stock inputs are non-negative: product creation
with non-negative initial stock and stock patches carrying a non-negative
value. -/
def GoodOp : Op → Prop
  | .createProduct req _ _ => 0 ≤ req.stock
  | .patchStock _ newStock => ∀ v, newStock = some v → 0 ≤ v
  | _ => True

/-- Every product in the store has non-negative stock. -/
def StocksNonneg (s : StoreState) : Prop := ∀ p ∈ s.products, 0 ≤ p.stock

/-! Helper lemmas about the association-list maps. -/

theorem mem_setProduct {x p : Product} {l : List Product}
    (h : x ∈ setProduct p l) : x = p ∨ x ∈ l := by
  induction l with
  | nil => simpa [setProduct] using h
  | cons q l ih =>
    simp only [setProduct] at h
    by_cases hq : q.id = p.id
    · rw [if_pos hq] at h
      rcases List.mem_cons.mp h with h1 | h1
      · exact Or.inl h1
      · exact Or.inr (List.mem_cons_of_mem _ h1)
    · rw [if_neg hq] at h
      rcases List.mem_cons.mp h with h1 | h1
      · exact Or.inr (h1 ▸ List.mem_cons_self _ _)
      · rcases ih h1 with h2 | h2
        · exact Or.inl h2
        · exact Or.inr (List.mem_cons_of_mem _ h2)

theorem findProduct_setProduct_self (p : Product) (l : List Product) :
    findProduct p.id (setProduct p l) = some p := by
  induction l with
  | nil => simp [setProduct, findProduct]
  | cons q l ih =>
    by_cases hq : q.id = p.id
    · simp [setProduct, findProduct, hq]
    · have h1 : setProduct p (q :: l) = q :: setProduct p l := by
        simp [setProduct, hq]
      rw [h1]
      unfold findProduct at ih ⊢
      rw [List.find?_cons_of_neg _ (by simp [hq])]
      exact ih

theorem findReport_setReport_self (r : DailyReport) (l : List DailyReport) :
    findReport r.date (setReport r l) = some r := by
  induction l with
  | nil => simp [setReport, findReport]
  | cons x l ih =>
    by_cases hx : x.date = r.date
    · simp [setReport, findReport, hx]
    · have h1 : setReport r (x :: l) = x :: setReport r l := by
        simp [setReport, hx]
      rw [h1]
      unfold findReport at ih ⊢
      rw [List.find?_cons_of_neg _ (by simp [hx])]
      exact ih

theorem date_of_findReport {d : Int} {l : List DailyReport} {r : DailyReport}
    (h : findReport d l = some r) : r.date = d := by
  have := List.find?_some h
  simpa using this

/-! Concrete stores used to instantiate the theorems. -/

/-- Product with purchase price 2, selling price 3 and stock 90. -/
def productA90 : Product := ⟨1, "Apple", 2, 3, 90, 0⟩

/-- Store holding only `productA90`. -/
def stock90State : StoreState := ⟨[productA90], [], []⟩

/-- Product with purchase price 2, selling price 3 and stock 100. -/
def productA100 : Product := ⟨1, "Apple", 2, 3, 100, 0⟩

/-- Store holding only `productA100`. -/
def stock100State : StoreState := ⟨[productA100], [], []⟩

/-- C8 counterexample: with stock 90, setting the stock to -110 does not fail
and the stock does not remain 90 — the route reports success and the stored
stock becomes -110 (negative). -/
theorem patchStock_negative_accepted :
    (patchProductStock 1 (some (-110)) stock90State).1 = StockResult.updated ∧
    (patchProductStock 1 (some (-110)) stock90State).2.products
      = [⟨1, "Apple", 2, 3, -110, 0⟩] ∧
    ((-110 : Rat) < 0) := by
  refine ⟨rfl, rfl, by norm_num⟩

/-- C8 amended: the stock route performs no range validation.  For an
existing product any parsed value, negative included, is accepted and
becomes the stock verbatim; the only rejected input is a missing or
non-numeric value, which leaves the store unchanged. -/
theorem patchStock_no_validation (id : Nat) (v : Rat) (s : StoreState)
    (p : Product) (hp : findProduct id s.products = some p) :
    patchProductStock id (some v) s
      = (StockResult.updated,
         { s with products := setProduct { p with stock := v } s.products }) ∧
    patchProductStock id none s = (StockResult.invalidInput, s) := by
  constructor
  · simp [patchProductStock, MemStorage.updateProductStock, hp]
  · rfl

/-- Witness for `patchStock_no_validation` at the concrete stock-90 store. -/
theorem patchStock_no_validation_wit :
    patchProductStock 1 (some (-110)) stock90State
      = (StockResult.updated,
         { stock90State with
             products := setProduct { productA90 with stock := -110 } stock90State.products }) ∧
    patchProductStock 1 none stock90State = (StockResult.invalidInput, stock90State) :=
  patchStock_no_validation 1 (-110) stock90State productA90 rfl

/-- C9 counterexample: updating the stock of an id that resolves to no
product reports success (HTTP 200, `StockResult.updated`) and silently
changes nothing — it does not fail with NotFound. -/
theorem patchStock_unknown_silent_success :
    patchProductStock 1 (some 50) emptyState = (StockResult.updated, emptyState) := rfl

/-- C9 amended: when the product id is unknown, the stock update reports
success and leaves the store unchanged; no NotFound error exists on this
path. -/
theorem patchStock_unknown_noop (id : Nat) (v : Rat) (s : StoreState)
    (hp : findProduct id s.products = none) :
    patchProductStock id (some v) s = (StockResult.updated, s) := by
  simp [patchProductStock, MemStorage.updateProductStock, hp]

/-- Witness for `patchStock_unknown_noop` on the empty store. -/
theorem patchStock_unknown_noop_wit :
    patchProductStock 7 (some 3) emptyState = (StockResult.updated, emptyState) :=
  patchStock_unknown_noop 7 3 emptyState rfl

/-- C10 counterexample: a request with empty name, negative purchase price,
zero selling price and negative stock is accepted and the product is added
to the ledger — no ValidationError occurs. -/
theorem createProduct_invalid_accepted :
    postProducts ⟨"", -5, 0, -3⟩ 1 0 emptyState
      = (⟨1, "", -5, 0, -3, 0⟩, ⟨[⟨1, "", -5, 0, -3, 0⟩], [], []⟩) := rfl

/-- C10 amended: product creation performs no content validation — every
shape-valid request succeeds, and the stored product carries the request's
name, prices and stock verbatim, whatever their values. -/
theorem createProduct_no_validation (req : InsertProduct) (freshId now : Nat)
    (s : StoreState) :
    (postProducts req freshId now s).1
      = ⟨freshId, req.name, req.purchasePrice, req.sellingPrice, req.stock, now⟩ ∧
    findProduct freshId (postProducts req freshId now s).2.products
      = some (postProducts req freshId now s).1 := by
  refine ⟨rfl, ?_⟩
  exact findProduct_setProduct_self
    ⟨freshId, req.name, req.purchasePrice, req.sellingPrice, req.stock, now⟩ s.products

/-- Weekly profit of the dashboard equals the profit sum over the range
query with start `today - 7`. -/
theorem getDashboardStats_weeklyProfit (today : Int) (s : StoreState) :
    (MemStorage.getDashboardStats today s).weeklyProfit
      = sumProfit (getSalesByDateRange (today - 7) today s.sales) := rfl

/-- Sale with profit 5 recorded exactly 7 days before day 0. -/
def weekOldSale : Sale := ⟨1, 1, 1, 5, 5, 5, -7⟩

/-- Store holding only `weekOldSale`. -/
def weekOldState : StoreState := ⟨[], [weekOldSale], []⟩

/-- C7 counterexample: a sale exactly 7 calendar days old (day `today - 7`)
does contribute to the dashboard's weekly profit, while the spec's trailing
window [today - 6, today] excludes it. -/
theorem weeklyProfit_includes_day_minus7 :
    (MemStorage.getDashboardStats 0 weekOldState).weeklyProfit = 5 ∧
    specWeeklyProfit 0 weekOldState = 0 ∧
    (MemStorage.getDashboardStats 0 weekOldState).weeklyProfit
      ≠ specWeeklyProfit 0 weekOldState := by
  refine ⟨?_, ?_, ?_⟩ <;>
    norm_num [MemStorage.getDashboardStats, getSalesByDateRange, specWeeklyProfit,
      weekOldState, weekOldSale, sumProfit]

/-- C7 amended: the dashboard's weekly profit sums profit over the trailing
8-day window [today - 7, today] inclusive; only sales more than 7 days old
(or dated after today) contribute nothing. -/
theorem weeklyProfit_window (today : Int) (s : StoreState) :
    (MemStorage.getDashboardStats today s).weeklyProfit
      = sumProfit (s.sales.filter
          (fun sa => decide (today - 7 ≤ sa.saleDay ∧ sa.saleDay ≤ today))) ∧
    ∀ sale : Sale, (sale.saleDay < today - 7 ∨ today < sale.saleDay) →
      (MemStorage.getDashboardStats today
          ⟨s.products, sale :: s.sales, s.dailyReports⟩).weeklyProfit
        = (MemStorage.getDashboardStats today s).weeklyProfit := by
  constructor
  · rw [getDashboardStats_weeklyProfit]
    unfold getSalesByDateRange
    congr 1
    apply List.filter_congr
    intro a _
    by_cases h1 : today - 7 ≤ a.saleDay <;> by_cases h2 : a.saleDay ≤ today <;>
      simp [h1, h2]
  · intro sale hs
    rw [getDashboardStats_weeklyProfit, getDashboardStats_weeklyProfit]
    unfold getSalesByDateRange
    have hfalse : (decide (today - 7 ≤ sale.saleDay) && decide (sale.saleDay ≤ today))
        = false := by
      rcases hs with h | h
      · simp [not_le.mpr h]
      · simp [not_le.mpr h]
    show sumProfit (List.filter _ (sale :: s.sales)) = _
    simp only [List.filter_cons, hfalse, Bool.false_eq_true, if_false]

/-- Witness for `weeklyProfit_window`: an 8-day-old sale does not change the
weekly profit. -/
theorem weeklyProfit_window_wit :
    (MemStorage.getDashboardStats 0
        ⟨emptyState.products, (⟨2, 1, 1, 4, 4, 4, -8⟩ : Sale) :: emptyState.sales,
         emptyState.dailyReports⟩).weeklyProfit
      = (MemStorage.getDashboardStats 0 emptyState).weeklyProfit :=
  (weeklyProfit_window 0 emptyState).2 ⟨2, 1, 1, 4, 4, 4, -8⟩ (Or.inl (by norm_num))

/-- Sale request for 150 units of product 1 at price 3. -/
def saleReq150 : InsertSale := ⟨1, 150, 3, 450, 150⟩

/-- C4: when the referenced product exists and the requested quantity
exceeds its current stock, POST /api/sales fails with the insufficient-stock
error and returns the store unchanged — no stock change, no sale record. -/
theorem recordSale_insufficientStock (req : InsertSale) (freshId : Nat)
    (today : Int) (s : StoreState) (p : Product)
    (hp : findProduct req.productId s.products = some p)
    (hq : p.stock < req.quantity) :
    postSales req freshId today s = (SaleResult.insufficientStock, s) := by
  simp [postSales, hp, hq]

/-- Witness for `recordSale_insufficientStock`: stock 90, quantity 150. -/
theorem recordSale_insufficientStock_wit :
    postSales saleReq150 2 0 stock90State = (SaleResult.insufficientStock, stock90State) :=
  recordSale_insufficientStock saleReq150 2 0 stock90State productA90 rfl
    (by norm_num [productA90, saleReq150])

/-- Sale request carrying caller-computed totals that do not match the
server-side formula: quantity 10 at price 3 with totalAmount 999.99 and
profit 888.88. -/
def bogusSaleReq : InsertSale := ⟨1, 10, 3, 999.99, 888.88⟩

/-- C1 (code bug): the sale route stores the caller-supplied `totalAmount`
and `profit` verbatim instead of deriving them.  For quantity 10 at price 3
against a product with purchase price 2 (stock 100), the spec mandates
totalAmount = round2(10 x 3) = 30 and profit = round2(totalAmount - 10 x 2),
but the stored sale keeps the request's 999.99 and 888.88. -/
theorem sale_totals_caller_trusted :
    (postSales bogusSaleReq 2 0 stock100State).1 = SaleResult.ok (mkSale bogusSaleReq 2 0) ∧
    (postSales bogusSaleReq 2 0 stock100State).2.sales = [mkSale bogusSaleReq 2 0] ∧
    (mkSale bogusSaleReq 2 0).totalAmount = 999.99 ∧
    (mkSale bogusSaleReq 2 0).profit = 888.88 ∧
    round2 (bogusSaleReq.quantity * bogusSaleReq.pricePerKg) = 30 ∧
    (mkSale bogusSaleReq 2 0).totalAmount
      ≠ round2 (bogusSaleReq.quantity * bogusSaleReq.pricePerKg) ∧
    (mkSale bogusSaleReq 2 0).profit
      ≠ round2 ((mkSale bogusSaleReq 2 0).totalAmount
          - bogusSaleReq.quantity * productA100.purchasePrice) := by
  refine ⟨rfl, rfl, rfl, rfl, ?_, ?_, ?_⟩ <;>
    norm_num [round2, bogusSaleReq, mkSale, productA100]

/-- Characterisation of `MemStorage.createSale` when the referenced product
exists: the sale is inserted and the product's stock becomes
`stock - quantity`, all in one step that leaves reports untouched. -/
theorem createSale_found (req : InsertSale) (freshId : Nat) (today : Int)
    (s : StoreState) (p : Product)
    (hp : findProduct req.productId s.products = some p) :
    MemStorage.createSale req freshId today s
      = (mkSale req freshId today,
         ⟨setProduct { p with stock := p.stock - req.quantity } s.products,
          setSale (mkSale req freshId today) s.sales,
          s.dailyReports⟩) := by
  unfold MemStorage.createSale MemStorage.updateProductStock
  simp only [hp]

/-- C3: POST /api/sales is all-or-nothing in the sequential model.  On any
failure the returned store is exactly the input store (no sale, no stock
change), and on success the returned store differs from the input store in
exactly two places at once: the new sale is inserted and the referenced
product's stock is decremented by exactly the sale's quantity, with daily
reports untouched. -/
theorem recordSale_atomic (req : InsertSale) (freshId : Nat) (today : Int)
    (s : StoreState) (r : SaleResult) (s2 : StoreState)
    (h : postSales req freshId today s = (r, s2)) :
    ((∀ sale, r ≠ SaleResult.ok sale) → s2 = s) ∧
    (∀ sale, r = SaleResult.ok sale →
      sale = mkSale req freshId today ∧
      ∃ p, findProduct req.productId s.products = some p ∧
        req.quantity ≤ p.stock ∧
        s2.products = setProduct { p with stock := p.stock - req.quantity } s.products ∧
        s2.sales = setSale sale s.sales ∧
        s2.dailyReports = s.dailyReports) := by
  unfold postSales at h
  cases hf : findProduct req.productId s.products with
  | none =>
    simp only [hf] at h
    obtain ⟨rfl, rfl⟩ := Prod.mk.injEq _ _ _ _ ▸ h
    exact ⟨fun _ => rfl, fun sale hsale => by cases hsale⟩
  | some p =>
    simp only [hf] at h
    by_cases hlt : p.stock < req.quantity
    · rw [if_pos hlt] at h
      obtain ⟨rfl, rfl⟩ := Prod.mk.injEq _ _ _ _ ▸ h
      exact ⟨fun _ => rfl, fun sale hsale => by cases hsale⟩
    · rw [if_neg hlt] at h
      simp only [createSale_found req freshId today s p hf] at h
      obtain ⟨rfl, rfl⟩ := Prod.mk.injEq _ _ _ _ ▸ h
      constructor
      · intro hne
        exact absurd rfl (hne (mkSale req freshId today))
      · intro sale hsale
        injection hsale with hs1
        subst hs1
        exact ⟨rfl, p, rfl, not_lt.mp hlt, rfl, rfl, rfl⟩

/-- Sale request for 10 units of product 1 at price 3 with matching totals. -/
def saleReq10 : InsertSale := ⟨1, 10, 3, 30, 10⟩

/-- Witness for `recordSale_atomic` on the concrete stock-100 store. -/
theorem recordSale_atomic_wit :
    ((∀ sale, (postSales saleReq10 2 0 stock100State).1 ≠ SaleResult.ok sale) →
        (postSales saleReq10 2 0 stock100State).2 = stock100State) ∧
    (∀ sale, (postSales saleReq10 2 0 stock100State).1 = SaleResult.ok sale →
      sale = mkSale saleReq10 2 0 ∧
      ∃ p, findProduct saleReq10.productId stock100State.products = some p ∧
        saleReq10.quantity ≤ p.stock ∧
        (postSales saleReq10 2 0 stock100State).2.products
          = setProduct { p with stock := p.stock - saleReq10.quantity } stock100State.products ∧
        (postSales saleReq10 2 0 stock100State).2.sales = setSale sale stock100State.sales ∧
        (postSales saleReq10 2 0 stock100State).2.dailyReports = stock100State.dailyReports) :=
  recordSale_atomic saleReq10 2 0 stock100State
    (postSales saleReq10 2 0 stock100State).1 (postSales saleReq10 2 0 stock100State).2 rfl

/-- Report produced by the submit route's update branch: totals recomputed
from today's sales, `isSubmitted` forced to true, `submittedAt` stamped only
on a false-to-true transition. -/
def refreshTotals (r : DailyReport) (today : Int) (now : Nat) (s : StoreState) : DailyReport :=
  ⟨r.id, r.date,
   round2 (sumTotalAmount (getSalesByDate today s.sales)),
   round2 (sumProfit (getSalesByDate today s.sales)),
   round2 (sumTotalAmount (getSalesByDate today s.sales)
     - sumProfit (getSalesByDate today s.sales)),
   true,
   if true && !r.isSubmitted then some now else r.submittedAt⟩

/-- Report produced by the submit route's create branch: fresh id, today's
recomputed totals, submitted with `submittedAt = now`. -/
def freshSubmittedReport (today : Int) (freshId now : Nat) (s : StoreState) : DailyReport :=
  ⟨freshId, today,
   round2 (sumTotalAmount (getSalesByDate today s.sales)),
   round2 (sumProfit (getSalesByDate today s.sales)),
   round2 (sumTotalAmount (getSalesByDate today s.sales)
     - sumProfit (getSalesByDate today s.sales)),
   true, some now⟩

/-- Characterisation of the submit route when a report for today exists and
the hour gate passes. -/
theorem postSubmitReport_update (hour : Nat) (today : Int) (freshId now : Nat)
    (s : StoreState) (r : DailyReport)
    (hh : ¬ hour < 18)
    (hr : findReport today s.dailyReports = some r) :
    postSubmitReport hour today freshId now s
      = (SubmitResult.submitted,
         { s with dailyReports := setReport (refreshTotals r today now s) s.dailyReports }) := by
  unfold postSubmitReport MemStorage.updateDailyReport refreshTotals
  rw [if_neg hh]
  simp only [hr]

/-- Characterisation of the submit route when no report for today exists and
the hour gate passes. -/
theorem postSubmitReport_create (hour : Nat) (today : Int) (freshId now : Nat)
    (s : StoreState)
    (hh : ¬ hour < 18)
    (hr : findReport today s.dailyReports = none) :
    postSubmitReport hour today freshId now s
      = (SubmitResult.submitted,
         { s with dailyReports :=
             setReport (freshSubmittedReport today freshId now s) s.dailyReports }) := by
  unfold postSubmitReport MemStorage.createDailyReport freshSubmittedReport
  rw [if_neg hh]
  simp only [hr, if_true]

/-- C5: resubmitting a date whose report is already submitted overwrites the
report's totals with a fresh recomputation from the sales at call time, but
`submittedAt` stays exactly as the first submission set it. -/
theorem resubmit_preserves_submittedAt (hour : Nat) (today : Int) (freshId now : Nat)
    (s : StoreState) (r : DailyReport)
    (hr : findReport today s.dailyReports = some r)
    (hsub : r.isSubmitted = true)
    (hh : 18 ≤ hour) :
    (postSubmitReport hour today freshId now s).1 = SubmitResult.submitted ∧
    ∃ r2, findReport today (postSubmitReport hour today freshId now s).2.dailyReports
        = some r2 ∧
      r2.submittedAt = r.submittedAt ∧
      r2.isSubmitted = true ∧
      r2.totalSales = round2 (sumTotalAmount (getSalesByDate today s.sales)) ∧
      r2.totalProfit = round2 (sumProfit (getSalesByDate today s.sales)) ∧
      r2.totalCost = round2 (sumTotalAmount (getSalesByDate today s.sales)
        - sumProfit (getSalesByDate today s.sales)) := by
  rw [postSubmitReport_update hour today freshId now s r (not_lt.mpr hh) hr]
  refine ⟨rfl, refreshTotals r today now s, ?_, ?_, rfl, rfl, rfl, rfl⟩
  · have h1 := findReport_setReport_self (refreshTotals r today now s) s.dailyReports
    have hd : (refreshTotals r today now s).date = today := by
      simpa [refreshTotals] using date_of_findReport hr
    rw [hd] at h1
    exact h1
  · simp [refreshTotals, hsub]

/-- Report already submitted on day 0 with `submittedAt = 99`. -/
def submittedReport0 : DailyReport := ⟨5, 0, 1, 1, 0, true, some 99⟩

/-- Sale of 10 units at price 3 (totals 30, profit 10) on day 0. -/
def saleDay0 : Sale := ⟨3, 1, 10, 3, 30, 10, 0⟩

/-- Store holding `saleDay0` and the already-submitted `submittedReport0`. -/
def submittedState : StoreState := ⟨[], [saleDay0], [submittedReport0]⟩

/-- Witness for `resubmit_preserves_submittedAt` at hour 18 on day 0. -/
theorem resubmit_preserves_submittedAt_wit :
    (postSubmitReport 18 0 9 500 submittedState).1 = SubmitResult.submitted ∧
    ∃ r2, findReport 0 (postSubmitReport 18 0 9 500 submittedState).2.dailyReports
        = some r2 ∧
      r2.submittedAt = submittedReport0.submittedAt ∧
      r2.isSubmitted = true ∧
      r2.totalSales = round2 (sumTotalAmount (getSalesByDate 0 submittedState.sales)) ∧
      r2.totalProfit = round2 (sumProfit (getSalesByDate 0 submittedState.sales)) ∧
      r2.totalCost = round2 (sumTotalAmount (getSalesByDate 0 submittedState.sales)
        - sumProfit (getSalesByDate 0 submittedState.sales)) :=
  resubmit_preserves_submittedAt 18 0 9 500 submittedState submittedReport0 rfl rfl
    (Nat.le_refl 18)

/-- C6: the submit route fails with EarlySubmission exactly when the local
hour is below 18; from hour 18 onwards it succeeds, and afterwards a report
for today exists with `isSubmitted = true` (created if absent, updated
otherwise). -/
theorem submit_gate (hour : Nat) (today : Int) (freshId now : Nat) (s : StoreState) :
    ((postSubmitReport hour today freshId now s).1 = SubmitResult.earlySubmission
        ↔ hour < 18) ∧
    (18 ≤ hour →
      (postSubmitReport hour today freshId now s).1 = SubmitResult.submitted ∧
      ∃ r2, findReport today (postSubmitReport hour today freshId now s).2.dailyReports
          = some r2 ∧ r2.isSubmitted = true) := by
  by_cases hlt : hour < 18
  · constructor
    · constructor
      · intro _
        exact hlt
      · intro _
        unfold postSubmitReport
        rw [if_pos hlt]
    · intro hge
      exact absurd hlt (not_lt.mpr hge)
  · constructor
    · cases hf : findReport today s.dailyReports with
      | some r =>
        rw [postSubmitReport_update hour today freshId now s r hlt hf]
        simp [hlt]
      | none =>
        rw [postSubmitReport_create hour today freshId now s hlt hf]
        simp [hlt]
    · intro _
      cases hf : findReport today s.dailyReports with
      | some r =>
        rw [postSubmitReport_update hour today freshId now s r hlt hf]
        refine ⟨rfl, refreshTotals r today now s, ?_, rfl⟩
        have h1 := findReport_setReport_self (refreshTotals r today now s) s.dailyReports
        have hd : (refreshTotals r today now s).date = today := by
          simpa [refreshTotals] using date_of_findReport hf
        rw [hd] at h1
        exact h1
      | none =>
        rw [postSubmitReport_create hour today freshId now s hlt hf]
        refine ⟨rfl, freshSubmittedReport today freshId now s, ?_, rfl⟩
        exact findReport_setReport_self (freshSubmittedReport today freshId now s) s.dailyReports

/-- Witness for `submit_gate` at hour 18 on the empty store. -/
theorem submit_gate_wit :
    (postSubmitReport 18 0 1 0 emptyState).1 = SubmitResult.submitted ∧
    ∃ r2, findReport 0 (postSubmitReport 18 0 1 0 emptyState).2.dailyReports
        = some r2 ∧ r2.isSubmitted = true :=
  (submit_gate 18 0 1 0 emptyState).2 (Nat.le_refl 18)

/-- The submit route never touches the products map. -/
theorem postSubmitReport_products (hour : Nat) (today : Int) (freshId now : Nat)
    (s : StoreState) :
    (postSubmitReport hour today freshId now s).2.products = s.products := by
  unfold postSubmitReport MemStorage.updateDailyReport MemStorage.createDailyReport
  split
  · rfl
  · split
    · split
      · rfl
      · rfl
    · rfl

/-- One good operation preserves non-negativity of every stock. -/
theorem applyOp_stocks_nonneg {o : Op} {s : StoreState}
    (hg : GoodOp o) (hs : StocksNonneg s) : StocksNonneg (applyOp s o) := by
  cases o with
  | createProduct req fid now =>
    intro p hp
    simp only [applyOp, postProducts, MemStorage.createProduct] at hp
    rcases mem_setProduct hp with h | h
    · rw [h]
      exact hg
    · exact hs p h
  | recordSale req fid today =>
    intro p hp
    simp only [applyOp] at hp
    revert hp
    unfold postSales
    cases hf : findProduct req.productId s.products with
    | none =>
      simp only []
      intro hp
      exact hs p hp
    | some q =>
      simp only []
      by_cases hlt : q.stock < req.quantity
      · rw [if_pos hlt]
        intro hp
        exact hs p hp
      · rw [if_neg hlt]
        rw [createSale_found req fid today s q hf]
        intro hp
        rcases mem_setProduct hp with h | h
        · rw [h]
          exact sub_nonneg.mpr (not_lt.mp hlt)
        · exact hs p h
  | patchStock id v =>
    cases v with
    | none =>
      intro p hp
      exact hs p hp
    | some w =>
      intro p hp
      simp only [applyOp, patchProductStock, MemStorage.updateProductStock] at hp
      revert hp
      cases hf : findProduct id s.products with
      | none =>
        intro hp
        exact hs p hp
      | some q =>
        simp only []
        intro hp
        rcases mem_setProduct hp with h | h
        · rw [h]
          exact hg w rfl
        · exact hs p h
  | submitReport hour today fid now =>
    intro p hp
    simp only [applyOp] at hp
    rw [postSubmitReport_products hour today fid now s] at hp
    exact hs p hp

/-- Folding good operations from a store with non-negative stocks keeps all
stocks non-negative. -/
theorem foldl_stocks_nonneg (ops : List Op) :
    ∀ s, (∀ o ∈ ops, GoodOp o) → StocksNonneg s →
      StocksNonneg (ops.foldl applyOp s) := by
  induction ops with
  | nil =>
    intro s _ hs
    exact hs
  | cons o l ih =>
    intro s hg hs
    exact ih (applyOp s o) (fun x hx => hg x (List.mem_cons_of_mem _ hx))
      (applyOp_stocks_nonneg (hg o (List.mem_cons_self _ _)) hs)

/-- C2 amended: the stock-nonnegativity invariant holds for every state
reached from the fresh store by operations whose explicit stock inputs are
non-negative (non-negative initial stock, non-negative patched stock); the
route itself does not enforce this, so a negative patch or creation breaks
it (see the counterexample). -/
theorem stocks_nonneg_of_good_ops (ops : List Op) (h : ∀ o ∈ ops, GoodOp o) :
    StocksNonneg (runOps ops) :=
  foldl_stocks_nonneg ops emptyState h (fun p hp => absurd hp (List.not_mem_nil p))

/-- C2 counterexample: creating a product with stock 100 and then patching
its stock to -5 is a reachable two-operation run after which the product's
stock is negative. -/
theorem stock_negative_reachable :
    ∃ p ∈ (runOps [Op.createProduct ⟨"A", 2, 3, 100⟩ 1 0,
        Op.patchStock 1 (some (-5))]).products, p.stock < 0 := by
  refine ⟨⟨1, "A", 2, 3, -5, 0⟩, ?_, by norm_num⟩
  have hl : (runOps [Op.createProduct ⟨"A", 2, 3, 100⟩ 1 0,
      Op.patchStock 1 (some (-5))]).products = [⟨1, "A", 2, 3, -5, 0⟩] := rfl
  rw [hl]
  exact List.mem_cons_self _ _

/-- Witness for `stocks_nonneg_of_good_ops`: create a product with stock 100
and sell 10 units. -/
theorem stocks_nonneg_of_good_ops_wit :
    StocksNonneg (runOps [Op.createProduct ⟨"A", 2, 3, 100⟩ 1 0,
      Op.recordSale ⟨1, 10, 3, 30, 10⟩ 2 0]) :=
  stocks_nonneg_of_good_ops _ (by
    intro o ho
    fin_cases ho
    · show (0 : Rat) ≤ 100
      norm_num
    · show True
      trivial)
